import Mathlib

/-!
Verification of `gh_project_helper.py`: a CLI tool that bootstraps a GitHub
repository with a fixed catalog of labels, issues and milestones.

The embedding models the program as a deterministic state machine over an
abstract external world `exec : σ → GhCall → CmdResult × σ` standing for the
`gh` command-line client (one call at a time, threading world state).  Python
string operations used by the source (`str.strip`, `in`, `str.splitlines`,
slicing, format padding) are modelled as executable functions on `List Char`.
-/

/-! ## Models of the Python string operations used by the source -/

/-- Python `str.strip()` on the character list: drop leading and trailing
whitespace.  (Python strips Unicode whitespace; the texts handled here are
ASCII, for which `Char.isWhitespace` agrees.) -/
def stripData (l : List Char) : List Char :=
  ((l.dropWhile Char.isWhitespace).reverse.dropWhile Char.isWhitespace).reverse

/-- Python `str.strip()`. -/
def pyStrip (s : String) : String :=
  ⟨stripData s.data⟩

/-- Contiguous-sublist search on character lists (the semantics of Python's
`sub in s` on strings). -/
def hasSub : List Char → List Char → Bool
  | [], pat => pat.isEmpty
  | c :: t, pat => List.isPrefixOf pat (c :: t) || hasSub t pat

/-- Python `sub in s` for strings: `sub` occurs contiguously in `s`. -/
def pyIn (sub s : String) : Bool :=
  hasSub s.data sub.data

/-- Split a character list at newline characters.  Models Python
`str.splitlines` for text whose only line terminator is `\n` (the `gh`
stdout handled by the source). -/
def splitLinesData : List Char → List (List Char)
  | [] => [[]]
  | c :: t =>
    match splitLinesData t with
    | [] => [[c]]
    | h :: r => if c = '\n' then [] :: h :: r else (c :: h) :: r

/-- Python `s.splitlines()[-1]` (the source applies it only to nonempty `s`). -/
def pyLastLine (s : String) : String :=
  ⟨(splitLinesData s.data).getLastD []⟩

/-- Python slice `s[:n]`: the first `n` characters. -/
def pySlice (s : String) (n : Nat) : String :=
  ⟨s.data.take n⟩

/-- Python format padding `f"{s:<n}"`: left-justify `s` in a field of width
`n`, padding with spaces (strings longer than `n` are kept whole). -/
def padR (s : String) (n : Nat) : String :=
  ⟨s.data ++ List.replicate (n - s.data.length) ' '⟩

/-! ## Data model: the Catalog (`LABELS`, `ISSUES`, `MILESTONES`) -/

/-- A desired label: `{"name": ..., "color": ..., "description": ...}`. -/
structure LabelSpec where
  name : String
  color : String
  description : String
deriving DecidableEq, Repr

/-- A desired issue: `{"title": ..., "body": ...}`. -/
structure IssueSpec where
  title : String
  body : String
deriving DecidableEq, Repr

/-- A desired milestone: `{"title": ..., "description": ...}`. -/
structure MilestoneSpec where
  title : String
  description : String
deriving DecidableEq, Repr

/-- The `LABELS` table of the source. -/
def LABELS : List LabelSpec :=
  [⟨"bug", "d73a4a", "Something isn't working"⟩,
   ⟨"feature", "a2eeef", "New feature request"⟩,
   ⟨"enhancement", "84b6eb", "Improvement to existing functionality"⟩,
   ⟨"documentation", "0075ca", "Improvements or additions to documentation"⟩,
   ⟨"good first issue", "7057ff", "Good for newcomers"⟩,
   ⟨"help wanted", "008672", "Extra attention is needed"⟩,
   ⟨"question", "d876e3", "Further information is requested"⟩,
   ⟨"wontfix", "ffffff", "This will not be worked on"⟩]

/-- The `ISSUES` table of the source. -/
def ISSUES : List IssueSpec :=
  [⟨"README setup", "Create a comprehensive README with project description, installation instructions, and usage examples."⟩,
   ⟨"Add LICENSE", "Choose and add an appropriate open-source license to the repository."⟩,
   ⟨"Set up CI/CD", "Configure continuous integration and deployment pipelines (e.g. GitHub Actions)."⟩,
   ⟨"Create contributing guidelines", "Add a CONTRIBUTING.md with guidelines for how others can contribute to the project."⟩]

/-- The `MILESTONES` table of the source. -/
def MILESTONES : List MilestoneSpec :=
  [⟨"v0.1 - Initial Setup", "Basic project scaffolding and repository configuration."⟩,
   ⟨"v0.2 - Core Features", "Implement the core functionality of the project."⟩,
   ⟨"v1.0 - First Release", "Stable first public release."⟩]

/-! ## External calls -/

/-- Outcome of one external process invocation (`subprocess.run` with
captured output): return code, standard output, standard error. -/
structure CmdResult where
  returncode : Nat
  stdout : String
  stderr : String
deriving DecidableEq, Repr

/-- The four shapes of external `gh` invocation the source makes.  Each
carries the structured arguments; `GhCall.argv` and `GhCall.stdinPayload`
below give the exact wire form the source builds. -/
inductive GhCall where
  | labelCreate (name color descr repo : String)
  | milestonePost (repo title descr : String)
  | issueList (repo : String)
  | issueCreate (title body repo : String)
deriving DecidableEq, Repr

/-- `json.dumps({"title": t, "description": d})` for field values free of
characters that JSON escapes (true of every Catalog milestone). -/
def jsonPayload (t d : String) : String :=
  "\x7b\"title\": \"" ++ t ++ "\", \"description\": \"" ++ d ++ "\"\x7d"

/-- The exact command vector the source builds for each call
(`run_gh` appends `-R repo`; the milestone call goes through `gh api`). -/
def GhCall.argv : GhCall → List String
  | .labelCreate n c d repo =>
    ["gh", "label", "create", n, "--color", c, "--description", d, "--force", "-R", repo]
  | .milestonePost repo _ _ =>
    ["gh", "api", "repos/" ++ repo ++ "/milestones", "--method", "POST", "--input", "-"]
  | .issueList repo =>
    ["gh", "issue", "list", "--state", "all", "--limit", "100", "--json", "title", "-R", repo]
  | .issueCreate t b repo =>
    ["gh", "issue", "create", "--title", t, "--body", b, "-R", repo]

/-- The standard input the source feeds the call (only the milestone POST
has one: the JSON payload). -/
def GhCall.stdinPayload : GhCall → Option String
  | .milestonePost _ t d => some (jsonPayload t d)
  | _ => none

/-- `run_gh`: classify a completed process.  With `check` (the default at
every call site), a nonzero return code yields `(False, stderr.strip())`;
otherwise `(True, stdout.strip())`. -/
def run_gh (check : Bool) (r : CmdResult) : Bool × String :=
  if check && r.returncode != 0 then (false, pyStrip r.stderr)
  else (true, pyStrip r.stdout)

/-- Execute a list of calls in order, threading the world state, and collect
the results. -/
def execTrace {σ : Type} (exec : σ → GhCall → CmdResult × σ) :
    σ → List GhCall → List CmdResult × σ
  | s, [] => ([], s)
  | s, c :: cs =>
    let p := exec s c
    let q := execTrace exec p.2 cs
    (p.1 :: q.1, q.2)

/-! ## The `setup` subcommand -/

/-- Output, calls and final world state of one phase of `setup`. -/
structure PhaseOut (σ : Type) where
  out : List String
  calls : List GhCall
  state : σ
deriving Repr

/-- The label-create call of the source for one label. -/
def labelCall (repo : String) (lb : LabelSpec) : GhCall :=
  .labelCreate lb.name lb.color lb.description repo

/-- The status line `setup` prints for one label, given the call result. -/
def labelLine (lb : LabelSpec) (r : CmdResult) : String :=
  let p := run_gh true r
  if p.1 then "  [ok] " ++ lb.name
  else "  [err] " ++ lb.name ++ ": " ++ p.2

/-- The label loop of `setup`: one unconditional create-with-overwrite call
per Catalog label, one report line each. -/
def labelsPhase {σ : Type} (exec : σ → GhCall → CmdResult × σ) (repo : String) :
    List LabelSpec → σ → PhaseOut σ
  | [], s => ⟨[], [], s⟩
  | lb :: rest, s =>
    let p := exec s (labelCall repo lb)
    let q := labelsPhase exec repo rest p.2
    ⟨labelLine lb p.1 :: q.out, labelCall repo lb :: q.calls, q.state⟩

/-- The milestone-create call of the source for one milestone. -/
def msCall (repo : String) (ms : MilestoneSpec) : GhCall :=
  .milestonePost repo ms.title ms.description

/-- The status line `setup` prints for one milestone: `[ok]` on success;
on failure, `[skip]` when the stripped stderr contains `already_exists` or
`Validation Failed`, else `[err]` carrying the stripped stderr. -/
def msLine (ms : MilestoneSpec) (r : CmdResult) : String :=
  if r.returncode == 0 then "  [ok] " ++ ms.title
  else
    let err := pyStrip r.stderr
    if pyIn "already_exists" err || pyIn "Validation Failed" err then
      "  [skip] " ++ ms.title ++ ": already exists"
    else
      "  [err] " ++ ms.title ++ ": " ++ err

/-- The milestone loop of `setup`: one unconditional POST per Catalog
milestone (no pre-check query), outcome classified by `msLine`. -/
def milestonesPhase {σ : Type} (exec : σ → GhCall → CmdResult × σ) (repo : String) :
    List MilestoneSpec → σ → PhaseOut σ
  | [], s => ⟨[], [], s⟩
  | ms :: rest, s =>
    let p := exec s (msCall repo ms)
    let q := milestonesPhase exec repo rest p.2
    ⟨msLine ms p.1 :: q.out, msCall repo ms :: q.calls, q.state⟩

/-- The issue-create call of the source for one issue. -/
def issueCall (repo : String) (iss : IssueSpec) : GhCall :=
  .issueCreate iss.title iss.body repo

/-- The status line `setup` prints for one attempted issue creation: on
success the title plus the last line of stdout (the created issue URL),
otherwise `[err]` carrying the stripped stderr. -/
def issueLine (iss : IssueSpec) (r : CmdResult) : String :=
  let p := run_gh true r
  if p.1 then
    let url := if p.2 == "" then "" else pyLastLine p.2
    "  [ok] " ++ iss.title ++ " " ++ url
  else "  [err] " ++ iss.title ++ ": " ++ p.2

/-- The issue loop of `setup`: a Catalog issue whose title is among the
fetched existing titles is reported `[skip]` with no call; otherwise a
create call is made and reported. -/
def issuesLoop {σ : Type} (exec : σ → GhCall → CmdResult × σ) (repo : String)
    (titles : List String) : List IssueSpec → σ → PhaseOut σ
  | [], s => ⟨[], [], s⟩
  | iss :: rest, s =>
    if titles.contains iss.title then
      let q := issuesLoop exec repo titles rest s
      ⟨("  [skip] " ++ iss.title ++ ": already exists") :: q.out, q.calls, q.state⟩
    else
      let p := exec s (issueCall repo iss)
      let q := issuesLoop exec repo titles rest p.2
      ⟨issueLine iss p.1 :: q.out, issueCall repo iss :: q.calls, q.state⟩

/-- The existing-title set used by the issue loop, computed from the bulk
listing result `r`: on success with nonempty (stripped) stdout the parsed
titles, otherwise the empty set.  `parse` stands for the Python
`[i["title"] for i in json.loads(existing)]` projection. -/
def titlesFromListing (parse : String → List String) (r : CmdResult) : List String :=
  let p := run_gh true r
  if p.1 && (p.2 != "") then parse p.2 else []

/-- The issue phase of `setup`: one bulk listing query (open and closed,
limit 100, titles only), then the issue loop. -/
def issuesPhase {σ : Type} (exec : σ → GhCall → CmdResult × σ)
    (parse : String → List String) (repo : String)
    (issues : List IssueSpec) (s : σ) : PhaseOut σ :=
  let p := exec s (GhCall.issueList repo)
  let titles := titlesFromListing parse p.1
  let q := issuesLoop exec repo titles issues p.2
  ⟨q.out, GhCall.issueList repo :: q.calls, q.state⟩

/-- A whole `setup` run: transcript (whole and per section), calls in
order, final world state. -/
structure SetupRun (σ : Type) where
  labelsOut : List String
  msOut : List String
  issuesOut : List String
  out : List String
  calls : List GhCall
  state : σ
deriving Repr

/-- The `setup` subcommand: labels, then milestones, then the listing query
and the issues, printing one line per item plus the fixed section headers. -/
def setupRun {σ : Type} (exec : σ → GhCall → CmdResult × σ)
    (parse : String → List String) (repo : String) (s : σ) : SetupRun σ :=
  let L := labelsPhase exec repo LABELS s
  let M := milestonesPhase exec repo MILESTONES L.state
  let I := issuesPhase exec parse repo ISSUES M.state
  ⟨L.out, M.out, I.out,
   ["Setting up project structure for " ++ repo ++ "\n", "Creating labels..."]
     ++ L.out ++ ["\nCreating milestones..."] ++ M.out
     ++ ["\nCreating issues..."] ++ I.out ++ ["\nDone!"],
   L.calls ++ M.calls ++ I.calls, I.state⟩

/-! ## The `suggest` subcommand -/

/-- One label row of `suggest`. -/
def labelRow (lb : LabelSpec) : String :=
  "  " ++ padR lb.name 20 ++ " #" ++ padR lb.color 9 ++ " " ++ lb.description

/-- One issue row of `suggest` (body truncated to its first 50 characters). -/
def issueRow (iss : IssueSpec) : String :=
  "  " ++ padR iss.title 35 ++ " " ++ pySlice iss.body 50

/-- One milestone row of `suggest`. -/
def msRow (ms : MilestoneSpec) : String :=
  "  " ++ padR ms.title 25 ++ " " ++ ms.description

/-- A dash rule of `n` hyphens. -/
def dashes (n : Nat) : String :=
  ⟨List.replicate n '-'⟩

/-- The full transcript of the `suggest` subcommand. -/
def suggestLines (repo : String) : List String :=
  ["Suggestions for " ++ repo ++ "\n",
   "Labels:",
   "  " ++ padR "Name" 20 ++ " " ++ padR "Color" 10 ++ " Description",
   "  " ++ dashes 20 ++ " " ++ dashes 10 ++ " " ++ dashes 40]
  ++ LABELS.map labelRow
  ++ ["\nIssues:",
      "  " ++ padR "Title" 35 ++ " Description",
      "  " ++ dashes 35 ++ " " ++ dashes 50]
  ++ ISSUES.map issueRow
  ++ ["\nMilestones:",
      "  " ++ padR "Title" 25 ++ " Description",
      "  " ++ dashes 25 ++ " " ++ dashes 50]
  ++ MILESTONES.map msRow

/-! ## The command-line surface (`main`) -/

/-- The two subcommands. -/
inductive Cmd where
  | suggest
  | setup
deriving DecidableEq, Repr

/-- Parsed arguments: the required `--repo owner/name` and the required
subcommand. -/
structure Args where
  repo : String
  cmd : Cmd
deriving DecidableEq, Repr

/-- The accepted command line, `--repo VALUE (suggest|setup)` (with
`argparse`, parent options precede the subcommand); anything else makes
`argparse` error out. -/
def parseArgs : List String → Option Args
  | ["--repo", r, "suggest"] => some ⟨r, .suggest⟩
  | ["--repo", r, "setup"] => some ⟨r, .setup⟩
  | _ => none

/-- Result of a whole process run: exit status, transcript, external calls
made. -/
structure MainRun (σ : Type) where
  exitCode : Nat
  out : List String
  calls : List GhCall
  state : σ
deriving Repr

/-- Dispatch a parsed command.  `suggest` prints the Catalog and makes no
external call; `setup` reconciles.  `main` returns normally in both cases,
so the process exit status is 0. -/
def runCmd {σ : Type} (exec : σ → GhCall → CmdResult × σ)
    (parse : String → List String) (a : Args) (s : σ) : MainRun σ :=
  match a.cmd with
  | .suggest => ⟨0, suggestLines a.repo, [], s⟩
  | .setup =>
    let R := setupRun exec parse a.repo s
    ⟨0, R.out, R.calls, R.state⟩

/-- The whole process: parse the arguments (`argparse` exits with status 2
on a parse error, printing usage), then dispatch. -/
def mainRun {σ : Type} (exec : σ → GhCall → CmdResult × σ)
    (parse : String → List String) (argv : List String) (s : σ) : MainRun σ :=
  match parseArgs argv with
  | none => ⟨2, ["usage"], [], s⟩
  | some a => runCmd exec parse a s

/-! ## A spec-modelled remote platform

The remote hosting platform is not code of this repository; for the claims
about behavior across runs it is modelled from the spec's external
collaborator contract (section 6) and entity-kind semantics (section 4.2).
-/

/-- Modelled from the spec: the observable state of the remote repository
(section 3, RemoteRepository): labels as name-keyed records, milestone
titles, issue titles listed newest first. -/
structure Remote where
  labels : List (String × String × String)
  milestones : List String
  issues : List String
deriving DecidableEq, Repr

/-- Encoding of one title for the listing's stdout: each character preceded
by an `x` marker, the title terminated by `y`.  Stands in for one JSON
title object; chosen injective with an executable, provably total decoder. -/
def encTitle (cs : List Char) : List Char :=
  cs.foldr (fun c acc => 'x' :: c :: acc) ['y']

/-- Character data of the encoded title list. -/
def encodeData (ts : List String) : List Char :=
  ts.foldr (fun t acc => encTitle t.data ++ acc) []

/-- Encoding of the whole title list (the listing's stdout). -/
def encodeTitles (ts : List String) : String :=
  ⟨encodeData ts⟩

/-- Decoder loop for `encodeTitles`; `acc` holds the reversed characters of
the title being read. -/
def decAux : List Char → List Char → List String
  | [], _ => []
  | a :: rest, acc =>
    if a = 'y' then String.mk acc.reverse :: decAux rest []
    else
      match rest with
      | [] => []
      | c :: rest2 => if a = 'x' then decAux rest2 (c :: acc) else []

/-- Decoder for `encodeTitles`; stands in for the Python
`[i["title"] for i in json.loads(existing)]` projection over the modelled
listing format. -/
def decodeTitles (s : String) : List String :=
  decAux s.data []

/-- Modelled from the spec: the external client semantics (section 6):
label create-with-overwrite always succeeds and replaces the stored triple;
a milestone POST for an existing title fails with a duplicate-signal error
text, otherwise records the title; the issue listing returns at most 100
titles, newest first; issue creation records the title and prints the
created item's URL. -/
def ghExec : Remote → GhCall → CmdResult × Remote
  | s, .labelCreate n c d _ =>
    (⟨0, "", ""⟩, { s with labels := (n, c, d) :: s.labels.filter (fun e => !(e.1 == n)) })
  | s, .milestonePost _ t _ =>
    if s.milestones.contains t then
      (⟨1, "", "HTTP 422: Validation Failed (already_exists)"⟩, s)
    else
      (⟨0, "", ""⟩, { s with milestones := t :: s.milestones })
  | s, .issueList _ =>
    (⟨0, encodeTitles (s.issues.take 100), ""⟩, s)
  | s, .issueCreate t _ _ =>
    (⟨0, "https://example.invalid/issues/1", ""⟩, { s with issues := t :: s.issues })

/-- The color/description pair the remote stores for a label name. -/
def lookupLabel (s : Remote) (n : String) : Option (String × String) :=
  (s.labels.find? (fun e => e.1 == n)).map (fun e => (e.2.1, e.2.2))

/-! ## Concrete test worlds (used to instantiate the general theorems) -/

/-- Recognizer for the bulk issue-listing call. -/
def isListCall : GhCall → Bool
  | .issueList _ => true
  | _ => false

/-- A world where every call succeeds with empty output. -/
def okWorld : Unit → GhCall → CmdResult × Unit :=
  fun _ _ => (⟨0, "", ""⟩, ())

/-- A world where every call fails with a generic error on stderr (with
trailing whitespace, to exercise the stripping). -/
def errWorld : Unit → GhCall → CmdResult × Unit :=
  fun _ _ => (⟨1, "", "network error\n"⟩, ())

/-- A world where milestone creation fails with a duplicate-signal error
text and everything else succeeds. -/
def dupMsWorld : Unit → GhCall → CmdResult × Unit :=
  fun _ c =>
    match c with
    | .milestonePost _ _ _ => (⟨1, "", "HTTP 422: Validation Failed"⟩, ())
    | _ => (⟨0, "", ""⟩, ())

/-- A world where only the bulk issue-listing query fails. -/
def listFailWorld : Unit → GhCall → CmdResult × Unit :=
  fun _ c =>
    match c with
    | .issueList _ => (⟨1, "", "boom"⟩, ())
    | _ => (⟨0, "", ""⟩, ())

/-- A world where only the create call for the label `bug` fails. -/
def oneLabelFailWorld : Unit → GhCall → CmdResult × Unit :=
  fun _ c =>
    match c with
    | .labelCreate "bug" _ _ _ => (⟨1, "", "could not create label"⟩, ())
    | _ => (⟨0, "", ""⟩, ())

/-- A world whose issue listing returns a fixed nonempty document. -/
def listDocWorld : Unit → GhCall → CmdResult × Unit :=
  fun _ c =>
    match c with
    | .issueList _ => (⟨0, "[doc]", ""⟩, ())
    | _ => (⟨0, "", ""⟩, ())

/-- A title projection that reads one title out of the fixed document
(standing for `json.loads` on `listDocWorld`'s output). -/
def oneTitleParse : String → List String :=
  fun _ => ["README setup"]

/-- A title projection for worlds whose listing output is never consulted. -/
def noParse : String → List String :=
  fun _ => []

/-- A remote already holding 100 newer issues and, beyond the listing
limit, an issue titled like the first Catalog issue. -/
def overLimitRemote : Remote :=
  ⟨[], [], (List.range 100).map (fun n => "extra-" ++ Nat.repr n) ++ ["README setup"]⟩

/-! ## Characterization of the phases over an arbitrary external world -/

/-- The results of the eight label calls of a run. -/
def labelResults {σ : Type} (exec : σ → GhCall → CmdResult × σ) (repo : String) (s : σ) :
    List CmdResult :=
  (execTrace exec s (LABELS.map (labelCall repo))).1

/-- World state after the label loop. -/
def stateAfterLabels {σ : Type} (exec : σ → GhCall → CmdResult × σ) (repo : String) (s : σ) : σ :=
  (execTrace exec s (LABELS.map (labelCall repo))).2

/-- The results of the three milestone calls of a run. -/
def msResults {σ : Type} (exec : σ → GhCall → CmdResult × σ) (repo : String) (s : σ) :
    List CmdResult :=
  (execTrace exec (stateAfterLabels exec repo s) (MILESTONES.map (msCall repo))).1

/-- World state after the milestone loop. -/
def stateAfterMs {σ : Type} (exec : σ → GhCall → CmdResult × σ) (repo : String) (s : σ) : σ :=
  (execTrace exec (stateAfterLabels exec repo s) (MILESTONES.map (msCall repo))).2

/-- The result of the single bulk issue-listing query of a run. -/
def listingResult {σ : Type} (exec : σ → GhCall → CmdResult × σ) (repo : String) (s : σ) :
    CmdResult :=
  (exec (stateAfterMs exec repo s) (GhCall.issueList repo)).1

/-- The existing-title set a run works with. -/
def listedTitles {σ : Type} (exec : σ → GhCall → CmdResult × σ)
    (parse : String → List String) (repo : String) (s : σ) : List String :=
  titlesFromListing parse (listingResult exec repo s)

theorem labelsPhase_eq {σ : Type} (exec : σ → GhCall → CmdResult × σ) (repo : String)
    (ls : List LabelSpec) : ∀ s : σ,
    labelsPhase exec repo ls s =
      ⟨List.zipWith labelLine ls (execTrace exec s (ls.map (labelCall repo))).1,
       ls.map (labelCall repo),
       (execTrace exec s (ls.map (labelCall repo))).2⟩ := by
  induction ls with
  | nil => intro s; simp [labelsPhase, execTrace]
  | cons lb rest ih => intro s; simp [labelsPhase, execTrace, ih]

theorem milestonesPhase_eq {σ : Type} (exec : σ → GhCall → CmdResult × σ) (repo : String)
    (ls : List MilestoneSpec) : ∀ s : σ,
    milestonesPhase exec repo ls s =
      ⟨List.zipWith msLine ls (execTrace exec s (ls.map (msCall repo))).1,
       ls.map (msCall repo),
       (execTrace exec s (ls.map (msCall repo))).2⟩ := by
  induction ls with
  | nil => intro s; simp [milestonesPhase, execTrace]
  | cons ms rest ih => intro s; simp [milestonesPhase, execTrace, ih]

theorem issuesLoop_calls {σ : Type} (exec : σ → GhCall → CmdResult × σ) (repo : String)
    (titles : List String) (iss : List IssueSpec) : ∀ s : σ,
    (issuesLoop exec repo titles iss s).calls =
      (iss.filter (fun i => !(titles.contains i.title))).map (issueCall repo) := by
  induction iss with
  | nil => intro s; simp [issuesLoop]
  | cons i rest ih =>
    intro s
    by_cases h : i.title ∈ titles
    · simp [issuesLoop, h, List.filter_cons, ih]
    · simp [issuesLoop, h, List.filter_cons, ih]

theorem issuesLoop_out_length {σ : Type} (exec : σ → GhCall → CmdResult × σ) (repo : String)
    (titles : List String) (iss : List IssueSpec) : ∀ s : σ,
    (issuesLoop exec repo titles iss s).out.length = iss.length := by
  induction iss with
  | nil => intro s; simp [issuesLoop]
  | cons i rest ih =>
    intro s
    by_cases h : i.title ∈ titles
    · simp [issuesLoop, h, ih]
    · simp [issuesLoop, h, ih]

theorem issuesLoop_skip_mem {σ : Type} (exec : σ → GhCall → CmdResult × σ) (repo : String)
    (titles : List String) (iss : List IssueSpec) (i : IssueSpec)
    (ht : i.title ∈ titles) : ∀ s : σ, i ∈ iss →
    ("  [skip] " ++ i.title ++ ": already exists") ∈ (issuesLoop exec repo titles iss s).out := by
  induction iss with
  | nil => intro s hmem; cases hmem
  | cons j rest ih =>
    intro s hmem
    rcases List.mem_cons.1 hmem with h | h
    · subst h
      simp [issuesLoop, ht]
    · cases hc : titles.contains j.title with
      | true =>
        simp only [issuesLoop, hc]
        rw [if_pos (by trivial)]
        exact List.mem_cons_of_mem _ (ih _ h)
      | false =>
        simp only [issuesLoop, hc]
        rw [if_neg (by simp)]
        exact List.mem_cons_of_mem _ (ih _ h)

theorem issuesLoop_all_create {σ : Type} (exec : σ → GhCall → CmdResult × σ) (repo : String)
    (titles : List String) (iss : List IssueSpec)
    (h : ∀ i ∈ iss, i.title ∉ titles) : ∀ s : σ,
    issuesLoop exec repo titles iss s =
      ⟨List.zipWith issueLine iss (execTrace exec s (iss.map (issueCall repo))).1,
       iss.map (issueCall repo),
       (execTrace exec s (iss.map (issueCall repo))).2⟩ := by
  induction iss with
  | nil => intro s; simp [issuesLoop, execTrace]
  | cons i rest ih =>
    intro s
    have hi := h i (List.mem_cons_self i rest)
    simp [issuesLoop, hi, execTrace, ih (fun j hj => h j (List.mem_cons_of_mem i hj))]

theorem setupRun_calls {σ : Type} (exec : σ → GhCall → CmdResult × σ)
    (parse : String → List String) (repo : String) (s : σ) :
    (setupRun exec parse repo s).calls =
      LABELS.map (labelCall repo) ++ MILESTONES.map (msCall repo)
        ++ GhCall.issueList repo ::
          (ISSUES.filter
            (fun i => !((listedTitles exec parse repo s).contains i.title))).map
            (issueCall repo) := by
  simp [setupRun, labelsPhase_eq, milestonesPhase_eq, issuesPhase, issuesLoop_calls,
    listedTitles, listingResult, stateAfterMs, stateAfterLabels]

theorem setupRun_labelsOut {σ : Type} (exec : σ → GhCall → CmdResult × σ)
    (parse : String → List String) (repo : String) (s : σ) :
    (setupRun exec parse repo s).labelsOut =
      List.zipWith labelLine LABELS (labelResults exec repo s) := by
  simp [setupRun, labelsPhase_eq, labelResults]

theorem setupRun_msOut {σ : Type} (exec : σ → GhCall → CmdResult × σ)
    (parse : String → List String) (repo : String) (s : σ) :
    (setupRun exec parse repo s).msOut =
      List.zipWith msLine MILESTONES (msResults exec repo s) := by
  simp [setupRun, labelsPhase_eq, milestonesPhase_eq, msResults, stateAfterLabels]

theorem setupRun_issuesOut_length {σ : Type} (exec : σ → GhCall → CmdResult × σ)
    (parse : String → List String) (repo : String) (s : σ) :
    (setupRun exec parse repo s).issuesOut.length = ISSUES.length := by
  simp [setupRun, issuesPhase, issuesLoop_out_length]

theorem setupRun_out_structure {σ : Type} (exec : σ → GhCall → CmdResult × σ)
    (parse : String → List String) (repo : String) (s : σ) :
    (setupRun exec parse repo s).out =
      ["Setting up project structure for " ++ repo ++ "\n", "Creating labels..."]
        ++ (setupRun exec parse repo s).labelsOut
        ++ ["\nCreating milestones..."] ++ (setupRun exec parse repo s).msOut
        ++ ["\nCreating issues..."] ++ (setupRun exec parse repo s).issuesOut
        ++ ["\nDone!"] := by
  simp [setupRun]

/-! ## Properties of the modelled listing encoding -/

theorem decAux_encTitle (cs : List Char) : ∀ (rest acc : List Char),
    decAux (encTitle cs ++ rest) acc = String.mk (acc.reverse ++ cs) :: decAux rest [] := by
  induction cs with
  | nil =>
    intro rest acc
    show decAux ('y' :: rest) acc = _
    rw [decAux.eq_def]
    simp
  | cons c t ih =>
    intro rest acc
    show decAux ('x' :: c :: (encTitle t ++ rest)) acc = _
    rw [decAux.eq_def]
    simpa using ih rest (c :: acc)

theorem decode_encode (ts : List String) : decodeTitles (encodeTitles ts) = ts := by
  have main : ∀ us : List String, decAux (encodeData us) [] = us := by
    intro us
    induction us with
    | nil => simp [encodeData, decAux]
    | cons t rest ih =>
      have : encodeData (t :: rest) = encTitle t.data ++ encodeData rest := rfl
      rw [this, decAux_encTitle]
      simp [ih]
  exact main ts

theorem encTitle_ne_nil (cs : List Char) : encTitle cs ≠ [] := by
  cases cs <;> simp [encTitle]

theorem encodeData_head_not_ws (ts : List String) (c : Char)
    (h : (encodeData ts).head? = some c) : c.isWhitespace = false := by
  cases ts with
  | nil => simp [encodeData] at h
  | cons t rest =>
    have he : encodeData (t :: rest) = encTitle t.data ++ encodeData rest := rfl
    rw [he] at h
    cases hd : t.data with
    | nil =>
      rw [hd] at h
      simp [encTitle] at h
      subst h
      decide
    | cons c0 cs =>
      rw [hd] at h
      have : encTitle (c0 :: cs) = 'x' :: c0 :: encTitle cs := rfl
      rw [this] at h
      simp at h
      subst h
      decide

theorem encTitle_getLast (cs : List Char) : (encTitle cs).getLast? = some 'y' := by
  induction cs with
  | nil => simp [encTitle]
  | cons c t ih =>
    have : encTitle (c :: t) = 'x' :: c :: encTitle t := rfl
    rw [this]
    rw [List.getLast?_cons_cons]
    rw [List.getLast?_cons, ih]
    rfl

theorem encodeData_getLast_not_ws (ts : List String) (c : Char)
    (h : (encodeData ts).getLast? = some c) : c.isWhitespace = false := by
  induction ts with
  | nil => simp [encodeData] at h
  | cons t rest ih =>
    have he : encodeData (t :: rest) = encTitle t.data ++ encodeData rest := rfl
    rw [he, List.getLast?_append] at h
    cases hr : (encodeData rest).getLast? with
    | none =>
      rw [hr, Option.none_or, encTitle_getLast] at h
      cases h
      decide
    | some d =>
      rw [hr, Option.or_some] at h
      cases h
      exact ih hr

theorem dropWhile_eq_self_of_head {α : Type} (p : α → Bool) (l : List α)
    (h : ∀ c, l.head? = some c → p c = false) : l.dropWhile p = l := by
  cases l with
  | nil => rfl
  | cons a t =>
    have ha := h a rfl
    simp [List.dropWhile_cons, ha]

theorem stripData_eq_self (l : List Char)
    (h1 : ∀ c, l.head? = some c → c.isWhitespace = false)
    (h2 : ∀ c, l.getLast? = some c → c.isWhitespace = false) :
    stripData l = l := by
  unfold stripData
  rw [dropWhile_eq_self_of_head _ _ h1]
  rw [dropWhile_eq_self_of_head _ _ (fun c hc => h2 c (by rwa [List.head?_reverse] at hc))]
  exact List.reverse_reverse l

theorem pyStrip_encodeTitles (ts : List String) :
    pyStrip (encodeTitles ts) = encodeTitles ts := by
  show String.mk (stripData (encodeData ts)) = encodeTitles ts
  rw [stripData_eq_self _ (encodeData_head_not_ws ts) (encodeData_getLast_not_ws ts)]
  rfl

theorem encodeTitles_bne_empty (ts : List String) (h : ts ≠ []) :
    (encodeTitles ts != "") = true := by
  rw [bne_iff_ne]
  cases ts with
  | nil => exact absurd rfl h
  | cons t rest =>
    intro heq
    have hd : encodeData (t :: rest) = ([] : List Char) := congrArg String.data heq
    have he : encodeData (t :: rest) = encTitle t.data ++ encodeData rest := rfl
    rw [he] at hd
    exact encTitle_ne_nil t.data (List.append_eq_nil.1 hd).1

/-! ## Behavior of the phases against the spec-modelled remote -/

theorem msLine_dup (ms : MilestoneSpec) :
    msLine ms ⟨1, "", "HTTP 422: Validation Failed (already_exists)"⟩ =
      "  [skip] " ++ ms.title ++ ": already exists" := by
  simp only [msLine]
  rw [if_neg (by decide)]
  rw [if_pos (by decide)]

theorem labelsPhase_ghExec_out (repo : String) (ls : List LabelSpec) : ∀ s : Remote,
    (labelsPhase ghExec repo ls s).out = ls.map (fun lb => "  [ok] " ++ lb.name) := by
  induction ls with
  | nil => intro s; simp [labelsPhase]
  | cons lb rest ih =>
    intro s
    simp [labelsPhase, ghExec, labelCall, labelLine, run_gh, ih]

theorem labelsPhase_ghExec_milestones (repo : String) (ls : List LabelSpec) : ∀ s : Remote,
    ((labelsPhase ghExec repo ls s).state).milestones = s.milestones := by
  induction ls with
  | nil => intro s; simp [labelsPhase]
  | cons lb rest ih =>
    intro s
    simp [labelsPhase, ghExec, labelCall, ih]

theorem labelsPhase_ghExec_issues (repo : String) (ls : List LabelSpec) : ∀ s : Remote,
    ((labelsPhase ghExec repo ls s).state).issues = s.issues := by
  induction ls with
  | nil => intro s; simp [labelsPhase]
  | cons lb rest ih =>
    intro s
    simp [labelsPhase, ghExec, labelCall, ih]

theorem milestonesPhase_ghExec_labels (repo : String) (ls : List MilestoneSpec) : ∀ s : Remote,
    ((milestonesPhase ghExec repo ls s).state).labels = s.labels := by
  induction ls with
  | nil => intro s; simp [milestonesPhase]
  | cons ms rest ih =>
    intro s
    simp only [milestonesPhase, ghExec, msCall, ih]
    split <;> rfl

theorem milestonesPhase_ghExec_issues (repo : String) (ls : List MilestoneSpec) : ∀ s : Remote,
    ((milestonesPhase ghExec repo ls s).state).issues = s.issues := by
  induction ls with
  | nil => intro s; simp [milestonesPhase]
  | cons ms rest ih =>
    intro s
    simp only [milestonesPhase, ghExec, msCall, ih]
    split <;> rfl

theorem milestonesPhase_ghExec_mono (repo : String) (ls : List MilestoneSpec) : ∀ s : Remote,
    ∀ x, x ∈ s.milestones → x ∈ ((milestonesPhase ghExec repo ls s).state).milestones := by
  induction ls with
  | nil => intro s x hx; simpa [milestonesPhase] using hx
  | cons ms rest ih =>
    intro s x hx
    by_cases h : s.milestones.contains ms.title
    · simp only [milestonesPhase, msCall, ghExec, h, if_true]
      exact ih _ x hx
    · simp only [milestonesPhase, msCall, ghExec, h, if_false]
      exact ih _ x (List.mem_cons_of_mem _ hx)

theorem milestonesPhase_ghExec_title_mem (repo : String) (ls : List MilestoneSpec) : ∀ s : Remote,
    ∀ ms ∈ ls, ms.title ∈ ((milestonesPhase ghExec repo ls s).state).milestones := by
  induction ls with
  | nil => intro s ms hms; cases hms
  | cons m rest ih =>
    intro s ms hms
    rcases List.mem_cons.1 hms with h | h
    · subst h
      by_cases hc : s.milestones.contains ms.title
      · simp only [milestonesPhase, msCall, ghExec, hc, if_true]
        exact milestonesPhase_ghExec_mono repo rest _ _ (by simpa using hc)
      · simp only [milestonesPhase, msCall, ghExec, hc, if_false]
        exact milestonesPhase_ghExec_mono repo rest _ _ (List.mem_cons_self _ _)
    · by_cases hc : s.milestones.contains m.title
      · simp only [milestonesPhase, msCall, ghExec, hc, if_true]
        exact ih _ ms h
      · simp only [milestonesPhase, msCall, ghExec, hc, if_false]
        exact ih _ ms h

theorem milestonesPhase_ghExec_all_skip (repo : String) (ls : List MilestoneSpec) : ∀ s : Remote,
    (∀ ms ∈ ls, ms.title ∈ s.milestones) →
    (milestonesPhase ghExec repo ls s).out =
      ls.map (fun ms => "  [skip] " ++ ms.title ++ ": already exists") := by
  induction ls with
  | nil => intro s _; simp [milestonesPhase]
  | cons m rest ih =>
    intro s h
    have hc : s.milestones.contains m.title = true := by
      simpa using h m (List.mem_cons_self m rest)
    simp only [milestonesPhase, msCall, ghExec, hc, if_true, List.map_cons]
    rw [msLine_dup]
    rw [ih _ (fun ms hms => h ms (List.mem_cons_of_mem m hms))]

theorem issuesLoop_ghExec_issues (repo : String) (titles : List String)
    (iss : List IssueSpec) : ∀ s : Remote,
    ((issuesLoop ghExec repo titles iss s).state).issues =
      ((iss.filter (fun i => !(titles.contains i.title))).map (fun i => i.title)).reverse
        ++ s.issues := by
  induction iss with
  | nil => intro s; simp [issuesLoop]
  | cons i rest ih =>
    intro s
    by_cases h : i.title ∈ titles
    · simp [issuesLoop, h, List.filter_cons, ih]
    · simp [issuesLoop, h, List.filter_cons, ih, ghExec, issueCall]

theorem issuesLoop_ghExec_labels (repo : String) (titles : List String)
    (iss : List IssueSpec) : ∀ s : Remote,
    ((issuesLoop ghExec repo titles iss s).state).labels = s.labels := by
  induction iss with
  | nil => intro s; simp [issuesLoop]
  | cons i rest ih =>
    intro s
    by_cases h : i.title ∈ titles
    · simp [issuesLoop, h, ih]
    · simp [issuesLoop, h, ih, ghExec, issueCall]

theorem issuesLoop_ghExec_milestones (repo : String) (titles : List String)
    (iss : List IssueSpec) : ∀ s : Remote,
    ((issuesLoop ghExec repo titles iss s).state).milestones = s.milestones := by
  induction iss with
  | nil => intro s; simp [issuesLoop]
  | cons i rest ih =>
    intro s
    by_cases h : i.title ∈ titles
    · simp [issuesLoop, h, ih]
    · simp [issuesLoop, h, ih, ghExec, issueCall]

theorem stateAfterLabels_eq {σ : Type} (exec : σ → GhCall → CmdResult × σ)
    (repo : String) (s : σ) :
    stateAfterLabels exec repo s = (labelsPhase exec repo LABELS s).state := by
  rw [labelsPhase_eq]
  rfl

theorem stateAfterMs_eq {σ : Type} (exec : σ → GhCall → CmdResult × σ)
    (repo : String) (s : σ) :
    stateAfterMs exec repo s =
      (milestonesPhase exec repo MILESTONES (labelsPhase exec repo LABELS s).state).state := by
  unfold stateAfterMs stateAfterLabels
  rw [labelsPhase_eq, milestonesPhase_eq]

theorem setupRun_state {σ : Type} (exec : σ → GhCall → CmdResult × σ)
    (parse : String → List String) (repo : String) (s : σ) :
    (setupRun exec parse repo s).state =
      (issuesLoop exec repo (listedTitles exec parse repo s) ISSUES
        ((exec (stateAfterMs exec repo s) (GhCall.issueList repo)).2)).state := by
  simp [setupRun, issuesPhase, labelsPhase_eq, milestonesPhase_eq, titlesFromListing,
    listedTitles, listingResult, stateAfterMs, stateAfterLabels]

theorem setupRun_issuesOut {σ : Type} (exec : σ → GhCall → CmdResult × σ)
    (parse : String → List String) (repo : String) (s : σ) :
    (setupRun exec parse repo s).issuesOut =
      (issuesLoop exec repo (listedTitles exec parse repo s) ISSUES
        ((exec (stateAfterMs exec repo s) (GhCall.issueList repo)).2)).out := by
  simp [setupRun, issuesPhase, labelsPhase_eq, milestonesPhase_eq, titlesFromListing,
    listedTitles, listingResult, stateAfterMs, stateAfterLabels]

theorem ghExec_issueList_snd (repo : String) (s : Remote) :
    (ghExec s (GhCall.issueList repo)).2 = s := rfl

theorem setupRun_ghExec_issues_eq (repo : String) (s0 : Remote) :
    ((setupRun ghExec decodeTitles repo s0).state).issues =
      ((ISSUES.filter
          (fun i => !((listedTitles ghExec decodeTitles repo s0).contains i.title))).map
          (fun i => i.title)).reverse ++ s0.issues := by
  rw [setupRun_state, ghExec_issueList_snd, issuesLoop_ghExec_issues]
  rw [stateAfterMs_eq, milestonesPhase_ghExec_issues, labelsPhase_ghExec_issues]

theorem setupRun_ghExec_milestones_mem (repo : String) (s0 : Remote) :
    ∀ ms ∈ MILESTONES, ms.title ∈ ((setupRun ghExec decodeTitles repo s0).state).milestones := by
  intro ms hms
  rw [setupRun_state, ghExec_issueList_snd, issuesLoop_ghExec_milestones]
  rw [stateAfterMs_eq]
  exact milestonesPhase_ghExec_title_mem repo MILESTONES _ ms hms

theorem listedTitles_ghExec (repo : String) (s : Remote) (h : s.issues ≠ []) :
    listedTitles ghExec decodeTitles repo s = s.issues.take 100 := by
  have hiss : (stateAfterMs ghExec repo s).issues = s.issues := by
    rw [stateAfterMs_eq, milestonesPhase_ghExec_issues, labelsPhase_ghExec_issues]
  have hres : listingResult ghExec repo s =
      ⟨0, encodeTitles ((s.issues).take 100), ""⟩ := by
    unfold listingResult
    show (ghExec (stateAfterMs ghExec repo s) (GhCall.issueList repo)).1 = _
    rw [show ∀ t : Remote, (ghExec t (GhCall.issueList repo)).1 =
      ⟨0, encodeTitles (t.issues.take 100), ""⟩ from fun t => rfl, hiss]
  have htake : s.issues.take 100 ≠ [] := by
    cases hcase : s.issues with
    | nil => exact absurd hcase h
    | cons a l => simp [List.take_succ_cons]
  have hrg : run_gh true ⟨0, encodeTitles (s.issues.take 100), ""⟩ =
      (true, encodeTitles (s.issues.take 100)) := by
    unfold run_gh
    rw [if_neg (by simp)]
    rw [pyStrip_encodeTitles]
  unfold listedTitles
  rw [hres]
  unfold titlesFromListing
  rw [hrg]
  simp only [Bool.true_and]
  rw [if_pos (encodeTitles_bne_empty _ htake)]
  exact decode_encode _

/-! ## Per-item line classification -/

theorem labelLine_ok (lb : LabelSpec) (r : CmdResult) (h : r.returncode = 0) :
    labelLine lb r = "  [ok] " ++ lb.name := by
  simp [labelLine, run_gh, h]

theorem labelLine_err (lb : LabelSpec) (r : CmdResult) (h : r.returncode ≠ 0) :
    labelLine lb r = "  [err] " ++ lb.name ++ ": " ++ pyStrip r.stderr := by
  simp [labelLine, run_gh, h]

theorem issueLine_err (iss : IssueSpec) (r : CmdResult) (h : r.returncode ≠ 0) :
    issueLine iss r = "  [err] " ++ iss.title ++ ": " ++ pyStrip r.stderr := by
  simp [issueLine, run_gh, h]

theorem msLine_skip (ms : MilestoneSpec) (r : CmdResult) (h0 : r.returncode ≠ 0)
    (hd : (pyIn "already_exists" (pyStrip r.stderr)
        || pyIn "Validation Failed" (pyStrip r.stderr)) = true) :
    msLine ms r = "  [skip] " ++ ms.title ++ ": already exists" := by
  simp only [msLine]
  rw [if_neg (by simp [h0])]
  rw [if_pos hd]

theorem msLine_err (ms : MilestoneSpec) (r : CmdResult) (h0 : r.returncode ≠ 0)
    (hd : (pyIn "already_exists" (pyStrip r.stderr)
        || pyIn "Validation Failed" (pyStrip r.stderr)) = false) :
    msLine ms r = "  [err] " ++ ms.title ++ ": " ++ pyStrip r.stderr := by
  simp only [msLine]
  rw [if_neg (by simp [h0])]
  rw [if_neg (by simp [hd])]

theorem msLine_ok (ms : MilestoneSpec) (r : CmdResult) (h : r.returncode = 0) :
    msLine ms r = "  [ok] " ++ ms.title := by
  simp [msLine, h]

theorem skip_ne_err (t e : String) :
    "  [skip] " ++ t ++ ": already exists" ≠ "  [err] " ++ t ++ ": " ++ e := by
  intro h
  rw [String.ext_iff] at h
  simp [String.data_append] at h

theorem setupRun_labelsOut_phase {σ : Type} (exec : σ → GhCall → CmdResult × σ)
    (parse : String → List String) (repo : String) (s : σ) :
    (setupRun exec parse repo s).labelsOut = (labelsPhase exec repo LABELS s).out := rfl

theorem setupRun_msOut_phase {σ : Type} (exec : σ → GhCall → CmdResult × σ)
    (parse : String → List String) (repo : String) (s : σ) :
    (setupRun exec parse repo s).msOut =
      (milestonesPhase exec repo MILESTONES (labelsPhase exec repo LABELS s).state).out := rfl

theorem setupRun_ghExec_labels_field (repo : String) (s0 : Remote) :
    ((setupRun ghExec decodeTitles repo s0).state).labels =
      ((labelsPhase ghExec repo LABELS s0).state).labels := by
  rw [setupRun_state, ghExec_issueList_snd, issuesLoop_ghExec_labels,
    stateAfterMs_eq, milestonesPhase_ghExec_labels]

theorem issuesLoop_create_line {σ : Type} (exec : σ → GhCall → CmdResult × σ) (repo : String)
    (titles : List String) (iss : List IssueSpec) (i : IssueSpec)
    (ht : i.title ∉ titles) : ∀ s : σ, i ∈ iss →
    ∃ r : CmdResult, issueLine i r ∈ (issuesLoop exec repo titles iss s).out := by
  induction iss with
  | nil => intro s hmem; cases hmem
  | cons j rest ih =>
    intro s hmem
    rcases List.mem_cons.1 hmem with h | h
    · subst h
      have hc : titles.contains i.title = false := by
        simpa using ht
      simp only [issuesLoop, hc]
      rw [if_neg (by simp)]
      exact ⟨(exec s (issueCall repo i)).1, List.mem_cons_self _ _⟩
    · cases hc : titles.contains j.title with
      | true =>
        simp only [issuesLoop, hc]
        rw [if_pos (by trivial)]
        obtain ⟨r, hr⟩ := ih _ h
        exact ⟨r, List.mem_cons_of_mem _ hr⟩
      | false =>
        simp only [issuesLoop, hc]
        rw [if_neg (by simp)]
        obtain ⟨r, hr⟩ := ih _ h
        exact ⟨r, List.mem_cons_of_mem _ hr⟩

/-! ## The claims -/

/-- Claim C1: for every milestone in the Catalog, `setup` attempts the remote
create call unconditionally — the milestone POST for each Catalog milestone is
among the calls of every run, whatever any call returns, and no pre-check
query precedes it; the milestone report lines are exactly the classification
of each call's result, where a failing call whose stripped stderr contains
`already_exists` or `Validation Failed` is reported as
`[skip] <title>: already exists` (a line distinct from any error line), and a
failing call with any other error text is reported as `[err]` carrying that
text. -/
theorem claim_C1 {σ : Type} (exec : σ → GhCall → CmdResult × σ)
    (parse : String → List String) (repo : String) (s : σ) :
    (∀ ms ∈ MILESTONES, msCall repo ms ∈ (setupRun exec parse repo s).calls)
    ∧ (setupRun exec parse repo s).msOut =
        List.zipWith msLine MILESTONES (msResults exec repo s)
    ∧ (∀ (ms : MilestoneSpec) (r : CmdResult), r.returncode ≠ 0 →
        ((pyIn "already_exists" (pyStrip r.stderr)
            || pyIn "Validation Failed" (pyStrip r.stderr)) = true →
          msLine ms r = "  [skip] " ++ ms.title ++ ": already exists")
        ∧ ((pyIn "already_exists" (pyStrip r.stderr)
            || pyIn "Validation Failed" (pyStrip r.stderr)) = false →
          msLine ms r = "  [err] " ++ ms.title ++ ": " ++ pyStrip r.stderr))
    ∧ (∀ (ms : MilestoneSpec) (e : String),
        "  [skip] " ++ ms.title ++ ": already exists"
          ≠ "  [err] " ++ ms.title ++ ": " ++ e) := by
  refine ⟨?_, setupRun_msOut exec parse repo s, ?_, ?_⟩
  · intro ms hms
    rw [setupRun_calls]
    exact List.mem_append.2
      (Or.inl (List.mem_append.2 (Or.inr (List.mem_map.2 ⟨ms, hms, rfl⟩))))
  · intro ms r h0
    exact ⟨msLine_skip ms r h0, msLine_err ms r h0⟩
  · intro ms e
    exact skip_ne_err ms.title e

/-- Witness for C1: in a world where every call succeeds, the first
milestone's POST is still attempted, and a failed POST whose stderr reads
`HTTP 422: Validation Failed` is reported as a skip. -/
theorem witness_C1 :
    msCall "acme/widgets"
        ⟨"v0.1 - Initial Setup", "Basic project scaffolding and repository configuration."⟩
        ∈ (setupRun okWorld noParse "acme/widgets" ()).calls
    ∧ msLine ⟨"v0.1 - Initial Setup", "Basic project scaffolding and repository configuration."⟩
        ⟨1, "", "HTTP 422: Validation Failed"⟩ =
      "  [skip] v0.1 - Initial Setup: already exists" := by
  refine ⟨(claim_C1 okWorld noParse "acme/widgets" ()).1 _ (by decide), ?_⟩
  exact (((claim_C1 okWorld noParse "acme/widgets" ()).2.2.1 _
    ⟨1, "", "HTTP 422: Validation Failed"⟩ (by decide)).1 (by decide)).trans (by decide)

/-- Claim C6: a `setup` run issues its calls in the fixed order: the eight
label creates in Catalog order, then the three milestone POSTs in Catalog
order, then the single issue-listing query, then the issue creates in
Catalog order (those whose titles the listing did not return). -/
theorem claim_C6 {σ : Type} (exec : σ → GhCall → CmdResult × σ)
    (parse : String → List String) (repo : String) (s : σ) :
    (setupRun exec parse repo s).calls =
      LABELS.map (labelCall repo) ++ MILESTONES.map (msCall repo)
        ++ GhCall.issueList repo ::
          (ISSUES.filter
            (fun i => !((listedTitles exec parse repo s).contains i.title))).map
            (issueCall repo) :=
  setupRun_calls exec parse repo s

/-- Claim C8: the process exit status reflects only argument-parsing
success: every run whose arguments parse exits with status 0, whatever the
subcommand, the external world, or the per-item outcomes. -/
theorem claim_C8 {σ : Type} (argv : List String) (a : Args)
    (h : parseArgs argv = some a) (exec : σ → GhCall → CmdResult × σ)
    (parse : String → List String) (s : σ) :
    (mainRun exec parse argv s).exitCode = 0 := by
  unfold mainRun
  rw [h]
  cases hc : a.cmd <;> simp [runCmd, hc]

/-- Witness for C8: `--repo acme/widgets setup` in a world where every
external call fails still exits with status 0. -/
theorem witness_C8 :
    (mainRun errWorld noParse ["--repo", "acme/widgets", "setup"] ()).exitCode = 0 :=
  claim_C8 ["--repo", "acme/widgets", "setup"] ⟨"acme/widgets", Cmd.setup⟩ rfl
    errWorld noParse ()

/-- Claim C9: if the bulk issue-listing call fails (nonzero status) or
returns output that strips to the empty string, `setup` proceeds with an
empty existing-title set, reports nothing for the listing itself, and
attempts to create every Catalog issue (the calls are exactly the full
fixed sequence, and the issue section is exactly the four per-create
report lines). -/
theorem claim_C9 {σ : Type} (exec : σ → GhCall → CmdResult × σ)
    (parse : String → List String) (repo : String) (s : σ)
    (h : (listingResult exec repo s).returncode ≠ 0
      ∨ pyStrip (listingResult exec repo s).stdout = "") :
    listedTitles exec parse repo s = []
    ∧ (setupRun exec parse repo s).calls =
        LABELS.map (labelCall repo) ++ MILESTONES.map (msCall repo)
          ++ GhCall.issueList repo :: ISSUES.map (issueCall repo)
    ∧ (setupRun exec parse repo s).issuesOut =
        List.zipWith issueLine ISSUES
          (execTrace exec ((exec (stateAfterMs exec repo s) (GhCall.issueList repo)).2)
            (ISSUES.map (issueCall repo))).1 := by
  have hT : listedTitles exec parse repo s = [] := by
    unfold listedTitles titlesFromListing
    rcases h with h1 | h1
    · have hrg : run_gh true (listingResult exec repo s) =
          (false, pyStrip (listingResult exec repo s).stderr) := by
        simp [run_gh, h1]
      rw [hrg]
      simp
    · by_cases h2 : (listingResult exec repo s).returncode = 0
      · have hrg : run_gh true (listingResult exec repo s) =
            (true, pyStrip (listingResult exec repo s).stdout) := by
          simp [run_gh, h2]
        rw [hrg]
        simp [h1]
      · have hrg : run_gh true (listingResult exec repo s) =
            (false, pyStrip (listingResult exec repo s).stderr) := by
          simp [run_gh, h2]
        rw [hrg]
        simp
  refine ⟨hT, ?_, ?_⟩
  · rw [setupRun_calls, hT]
    simp
  · rw [setupRun_issuesOut, hT,
      issuesLoop_all_create _ _ _ _ (fun i _ => List.not_mem_nil _)]

/-- Witness for C9: in a world where only the listing query fails, the
existing-title set is empty and all four issue creates are attempted. -/
theorem witness_C9 :
    listedTitles listFailWorld noParse "acme/widgets" () = []
    ∧ (setupRun listFailWorld noParse "acme/widgets" ()).calls =
        LABELS.map (labelCall "acme/widgets") ++ MILESTONES.map (msCall "acme/widgets")
          ++ GhCall.issueList "acme/widgets" :: ISSUES.map (issueCall "acme/widgets") := by
  have h := claim_C9 listFailWorld noParse "acme/widgets" () (Or.inl (by decide))
  exact ⟨h.1, h.2.1⟩

/-- Claim C2: `setup` makes exactly one bulk listing query for issues (open
and closed, via `--state all`); every Catalog issue whose title is among the
returned existing titles gets no create call (for any body or repo) and is
reported skipped; every other Catalog issue gets a create call and a
per-item report line of its own, the issue section having exactly one line
per Catalog issue. -/
theorem claim_C2 {σ : Type} (exec : σ → GhCall → CmdResult × σ)
    (parse : String → List String) (repo : String) (s : σ) :
    ((setupRun exec parse repo s).calls.countP isListCall = 1)
    ∧ (GhCall.issueList repo).argv =
        ["gh", "issue", "list", "--state", "all", "--limit", "100",
         "--json", "title", "-R", repo]
    ∧ (∀ iss ∈ ISSUES, iss.title ∈ listedTitles exec parse repo s →
        (∀ b rp, GhCall.issueCreate iss.title b rp ∉ (setupRun exec parse repo s).calls)
        ∧ ("  [skip] " ++ iss.title ++ ": already exists")
            ∈ (setupRun exec parse repo s).issuesOut)
    ∧ (∀ iss ∈ ISSUES, iss.title ∉ listedTitles exec parse repo s →
        GhCall.issueCreate iss.title iss.body repo ∈ (setupRun exec parse repo s).calls
        ∧ ∃ r : CmdResult, issueLine iss r ∈ (setupRun exec parse repo s).issuesOut)
    ∧ (setupRun exec parse repo s).issuesOut.length = ISSUES.length := by
  refine ⟨?_, rfl, ?_, ?_, setupRun_issuesOut_length exec parse repo s⟩
  · rw [setupRun_calls]
    simp only [List.countP_append, List.countP_cons, List.countP_map, isListCall]
    have hA : List.countP (isListCall ∘ labelCall repo) LABELS = 0 :=
      List.countP_eq_zero.2 (fun a _ h => nomatch h)
    have hB : List.countP (isListCall ∘ msCall repo) MILESTONES = 0 :=
      List.countP_eq_zero.2 (fun a _ h => nomatch h)
    have hC : List.countP (isListCall ∘ issueCall repo)
        (List.filter (fun i => !((listedTitles exec parse repo s).contains i.title)) ISSUES) = 0 :=
      List.countP_eq_zero.2 (fun a _ h => nomatch h)
    rw [hA, hB, hC]
    simp
  · intro iss hiss htit
    constructor
    · intro b rp hmem
      rw [setupRun_calls] at hmem
      rcases List.mem_append.1 hmem with hL | hR
      · rcases List.mem_append.1 hL with h1 | h2
        · rcases List.mem_map.1 h1 with ⟨lb, _, heq⟩
          exact absurd heq (by simp [labelCall])
        · rcases List.mem_map.1 h2 with ⟨m, _, heq⟩
          exact absurd heq (by simp [msCall])
      · rcases List.mem_cons.1 hR with h3 | h4
        · exact absurd h3 (by simp)
        · rcases List.mem_map.1 h4 with ⟨j, hj, heq⟩
          rcases List.mem_filter.1 hj with ⟨hjIss, hjT⟩
          simp only [issueCall, GhCall.issueCreate.injEq] at heq
          rw [heq.1] at hjT
          simp [htit] at hjT
    · rw [setupRun_issuesOut]
      exact issuesLoop_skip_mem exec repo _ ISSUES iss htit _ hiss
  · intro iss hiss htit
    constructor
    · rw [setupRun_calls]
      refine List.mem_append.2 (Or.inr (List.mem_cons.2 (Or.inr ?_)))
      exact List.mem_map.2 ⟨iss, List.mem_filter.2 ⟨hiss, by simpa using htit⟩, rfl⟩
    · rw [setupRun_issuesOut]
      exact issuesLoop_create_line exec repo _ ISSUES iss htit _ hiss

/-- Witness for C2: against a world whose listing reports `README setup` as
existing, that issue gets no create call and a skip line, while `Add
LICENSE` is created. -/
theorem witness_C2 :
    "README setup" ∈ listedTitles listDocWorld oneTitleParse "acme/widgets" ()
    ∧ (∀ b rp, GhCall.issueCreate "README setup" b rp
        ∉ (setupRun listDocWorld oneTitleParse "acme/widgets" ()).calls)
    ∧ ("  [skip] README setup: already exists")
        ∈ (setupRun listDocWorld oneTitleParse "acme/widgets" ()).issuesOut
    ∧ GhCall.issueCreate "Add LICENSE"
        "Choose and add an appropriate open-source license to the repository."
        "acme/widgets" ∈ (setupRun listDocWorld oneTitleParse "acme/widgets" ()).calls := by
  have h := claim_C2 listDocWorld oneTitleParse "acme/widgets" ()
  have h3 := h.2.2.1
    ⟨"README setup", "Create a comprehensive README with project description, installation instructions, and usage examples."⟩
    (by decide) (by decide)
  have h4 := h.2.2.2.1
    ⟨"Add LICENSE", "Choose and add an appropriate open-source license to the repository."⟩
    (by decide) (by decide)
  exact ⟨by decide, h3.1, h3.2, h4.1⟩

/-- Claim C3: every Catalog label gets an unconditional create-with-overwrite
call (`--force` in the exact command vector) in every run, whatever any call
returns; against the spec-modelled remote, after a run every Catalog label's
stored color/description pair equals the Catalog's exactly, whatever the
prior remote state; and no failure prevents the remaining labels, all
milestones, and all issues from being attempted (all are attempted in every
world, including worlds where any one label call fails). -/
theorem claim_C3 {σ : Type} (exec : σ → GhCall → CmdResult × σ)
    (parse : String → List String) (repo : String) (s : σ) :
    (∀ lb ∈ LABELS, labelCall repo lb ∈ (setupRun exec parse repo s).calls
      ∧ (labelCall repo lb).argv =
        ["gh", "label", "create", lb.name, "--color", lb.color,
         "--description", lb.description, "--force", "-R", repo])
    ∧ (∀ s0 : Remote, ∀ lb ∈ LABELS,
        lookupLabel ((setupRun ghExec decodeTitles repo s0).state) lb.name =
          some (lb.color, lb.description))
    ∧ (∀ ms ∈ MILESTONES, msCall repo ms ∈ (setupRun exec parse repo s).calls)
    ∧ (∀ iss ∈ ISSUES,
        ("  [skip] " ++ iss.title ++ ": already exists")
            ∈ (setupRun exec parse repo s).issuesOut
        ∨ GhCall.issueCreate iss.title iss.body repo ∈ (setupRun exec parse repo s).calls) := by
  refine ⟨?_, ?_, ?_, ?_⟩
  · intro lb hlb
    refine ⟨?_, rfl⟩
    rw [setupRun_calls]
    exact List.mem_append.2
      (Or.inl (List.mem_append.2 (Or.inl (List.mem_map.2 ⟨lb, hlb, rfl⟩))))
  · intro s0 lb hlb
    unfold lookupLabel
    rw [setupRun_ghExec_labels_field]
    simp only [LABELS] at hlb
    fin_cases hlb <;> rfl
  · intro ms hms
    rw [setupRun_calls]
    exact List.mem_append.2
      (Or.inl (List.mem_append.2 (Or.inr (List.mem_map.2 ⟨ms, hms, rfl⟩))))
  · intro iss hiss
    by_cases htit : iss.title ∈ listedTitles exec parse repo s
    · left
      rw [setupRun_issuesOut]
      exact issuesLoop_skip_mem exec repo _ ISSUES iss htit _ hiss
    · right
      rw [setupRun_calls]
      refine List.mem_append.2 (Or.inr (List.mem_cons.2 (Or.inr ?_)))
      exact List.mem_map.2 ⟨iss, List.mem_filter.2 ⟨hiss, by simpa using htit⟩, rfl⟩

/-- Witness for C3: in the world where only the `bug` label call fails, the
`feature` label call and the first milestone call are still made; and on a
spec-modelled remote that already holds a stale `bug` label, one run leaves
the Catalog's exact color and description. -/
theorem witness_C3 :
    labelCall "acme/widgets" ⟨"feature", "a2eeef", "New feature request"⟩
        ∈ (setupRun oneLabelFailWorld noParse "acme/widgets" ()).calls
    ∧ msCall "acme/widgets"
        ⟨"v0.1 - Initial Setup", "Basic project scaffolding and repository configuration."⟩
        ∈ (setupRun oneLabelFailWorld noParse "acme/widgets" ()).calls
    ∧ lookupLabel ((setupRun ghExec decodeTitles "acme/widgets"
          ⟨[("bug", "000000", "stale")], [], []⟩).state) "bug" =
        some ("d73a4a", "Something isn't working") := by
  have h := claim_C3 oneLabelFailWorld noParse "acme/widgets" ()
  refine ⟨(h.1 _ (by decide)).1, h.2.2.1 _ (by decide), ?_⟩
  exact h.2.1 ⟨[("bug", "000000", "stale")], [], []⟩
    ⟨"bug", "d73a4a", "Something isn't working"⟩ (by decide)

/-- Claim C7: for every repo argument, the `suggest` subcommand performs no
external call and prints the fixed Catalog report: exactly 8 label rows, 4
issue rows with each body truncated to its first 50 characters, and 3
milestone rows. -/
theorem claim_C7 {σ : Type} (repo : String) (exec : σ → GhCall → CmdResult × σ)
    (parse : String → List String) (s : σ) :
    (runCmd exec parse ⟨repo, Cmd.suggest⟩ s).calls = []
    ∧ (runCmd exec parse ⟨repo, Cmd.suggest⟩ s).out = suggestLines repo
    ∧ suggestLines repo =
        ["Suggestions for " ++ repo ++ "\n", "Labels:",
         "  " ++ padR "Name" 20 ++ " " ++ padR "Color" 10 ++ " Description",
         "  " ++ dashes 20 ++ " " ++ dashes 10 ++ " " ++ dashes 40]
        ++ LABELS.map labelRow
        ++ ["\nIssues:", "  " ++ padR "Title" 35 ++ " Description",
            "  " ++ dashes 35 ++ " " ++ dashes 50]
        ++ ISSUES.map issueRow
        ++ ["\nMilestones:", "  " ++ padR "Title" 25 ++ " Description",
            "  " ++ dashes 25 ++ " " ++ dashes 50]
        ++ MILESTONES.map msRow
    ∧ (LABELS.map labelRow).length = 8
    ∧ (ISSUES.map issueRow).length = 4
    ∧ (∀ iss : IssueSpec,
        issueRow iss = "  " ++ padR iss.title 35 ++ " " ++ pySlice iss.body 50
        ∧ (pySlice iss.body 50).data = iss.body.data.take 50)
    ∧ (MILESTONES.map msRow).length = 3 :=
  ⟨rfl, rfl, rfl, rfl, rfl, fun _ => ⟨rfl, rfl⟩, rfl⟩

theorem execTrace_length {σ : Type} (exec : σ → GhCall → CmdResult × σ) :
    ∀ (cs : List GhCall) (s : σ), ((execTrace exec s cs).1).length = cs.length := by
  intro cs
  induction cs with
  | nil => intro s; simp [execTrace]
  | cons c rest ih => intro s; simp [execTrace, ih]

/-- Counterexample for C4: in a world where every milestone POST fails with
stderr `HTTP 422: Validation Failed`, the failing calls are real (nonzero
status), yet no line of the whole transcript carries that stderr text — the
failures are reported as `[skip] ...: already exists` lines instead.  So not
every failure is converted to a report line whose message is the call's
stderr text. -/
theorem counterexample_C4 :
    (dupMsWorld () (msCall "acme/widgets"
        ⟨"v0.1 - Initial Setup", "Basic project scaffolding and repository configuration."⟩)).1.returncode ≠ 0
    ∧ (dupMsWorld () (msCall "acme/widgets"
        ⟨"v0.1 - Initial Setup", "Basic project scaffolding and repository configuration."⟩)).1.stderr =
      "HTTP 422: Validation Failed"
    ∧ (setupRun dupMsWorld noParse "acme/widgets" ()).msOut =
        ["  [skip] v0.1 - Initial Setup: already exists",
         "  [skip] v0.2 - Core Features: already exists",
         "  [skip] v1.0 - First Release: already exists"]
    ∧ (∀ l ∈ (setupRun dupMsWorld noParse "acme/widgets" ()).out,
        pyIn "Validation Failed" l = false) := by
  exact ⟨by decide, by decide, by decide, by decide⟩

/-- Claim C4 (amended): every failure of a per-item call (label create,
milestone create, issue create) is caught and converted to that item's
report line, and execution always continues to the complete fixed transcript
(20 lines) — no error escapes to end the run early.  The line's message is
the whitespace-stripped stderr text for label creates, issue creates, and
milestone failures without a duplicate signal; a milestone failure whose
stripped stderr contains `already_exists` or `Validation Failed` is instead
reported as `[skip] <title>: already exists`; a failing bulk listing query
produces no report line of its own (the transcript still has exactly one
line per item plus the fixed headers). -/
theorem claim_C4 {σ : Type} (exec : σ → GhCall → CmdResult × σ)
    (parse : String → List String) (repo : String) (s : σ) :
    (setupRun exec parse repo s).out.length = 20
    ∧ (setupRun exec parse repo s).out =
        ["Setting up project structure for " ++ repo ++ "\n", "Creating labels..."]
          ++ (setupRun exec parse repo s).labelsOut
          ++ ["\nCreating milestones..."] ++ (setupRun exec parse repo s).msOut
          ++ ["\nCreating issues..."] ++ (setupRun exec parse repo s).issuesOut
          ++ ["\nDone!"]
    ∧ (setupRun exec parse repo s).labelsOut =
        List.zipWith labelLine LABELS (labelResults exec repo s)
    ∧ (setupRun exec parse repo s).msOut =
        List.zipWith msLine MILESTONES (msResults exec repo s)
    ∧ (setupRun exec parse repo s).issuesOut.length = ISSUES.length
    ∧ (∀ (lb : LabelSpec) (r : CmdResult), r.returncode ≠ 0 →
        labelLine lb r = "  [err] " ++ lb.name ++ ": " ++ pyStrip r.stderr)
    ∧ (∀ (iss : IssueSpec) (r : CmdResult), r.returncode ≠ 0 →
        issueLine iss r = "  [err] " ++ iss.title ++ ": " ++ pyStrip r.stderr)
    ∧ (∀ (ms : MilestoneSpec) (r : CmdResult), r.returncode ≠ 0 →
        ((pyIn "already_exists" (pyStrip r.stderr)
            || pyIn "Validation Failed" (pyStrip r.stderr)) = false →
          msLine ms r = "  [err] " ++ ms.title ++ ": " ++ pyStrip r.stderr)
        ∧ ((pyIn "already_exists" (pyStrip r.stderr)
            || pyIn "Validation Failed" (pyStrip r.stderr)) = true →
          msLine ms r = "  [skip] " ++ ms.title ++ ": already exists")) := by
  have hL : (setupRun exec parse repo s).labelsOut.length = 8 := by
    rw [setupRun_labelsOut]
    simp [labelResults, List.length_zipWith, execTrace_length, LABELS]
  have hM : (setupRun exec parse repo s).msOut.length = 3 := by
    rw [setupRun_msOut]
    simp [msResults, List.length_zipWith, execTrace_length, MILESTONES]
  have hI : (setupRun exec parse repo s).issuesOut.length = 4 := by
    rw [setupRun_issuesOut_length]
    rfl
  refine ⟨?_, setupRun_out_structure exec parse repo s,
    setupRun_labelsOut exec parse repo s, setupRun_msOut exec parse repo s,
    setupRun_issuesOut_length exec parse repo s, ?_, ?_, ?_⟩
  · rw [setupRun_out_structure]
    simp [hL, hM, hI]
  · intro lb r h
    exact labelLine_err lb r h
  · intro iss r h
    exact issueLine_err iss r h
  · intro ms r h
    exact ⟨msLine_err ms r h, msLine_skip ms r h⟩

/-- Witness for C4 (amended): in a world where every call fails with stderr
`network error` plus a trailing newline, the transcript is still the full 20
lines and the `bug` label's line carries the stripped stderr. -/
theorem witness_C4 :
    (setupRun errWorld noParse "acme/widgets" ()).out.length = 20
    ∧ labelLine ⟨"bug", "d73a4a", "Something isn't working"⟩ ⟨1, "", "network error\n"⟩ =
        "  [err] bug: network error" := by
  refine ⟨(claim_C4 errWorld noParse "acme/widgets" ()).1, ?_⟩
  exact ((claim_C4 errWorld noParse "acme/widgets" ()).2.2.2.2.2.1 _
    ⟨1, "", "network error\n"⟩ (by decide)).trans (by decide)

/-- Claim C5: running `setup` twice in succession against the spec-modelled
remote (the first run's creates persisting in the remote state), the second
run reports every label `[ok]` again (overwritten), every milestone
`[skip]`, and a skip line appears for every issue whose create call the
first run made. -/
theorem claim_C5 (repo : String) (s0 : Remote) :
    (setupRun ghExec decodeTitles repo
        (setupRun ghExec decodeTitles repo s0).state).labelsOut =
      LABELS.map (fun lb => "  [ok] " ++ lb.name)
    ∧ (setupRun ghExec decodeTitles repo
        (setupRun ghExec decodeTitles repo s0).state).msOut =
      MILESTONES.map (fun ms => "  [skip] " ++ ms.title ++ ": already exists")
    ∧ (∀ iss ∈ ISSUES,
        GhCall.issueCreate iss.title iss.body repo
            ∈ (setupRun ghExec decodeTitles repo s0).calls →
        ("  [skip] " ++ iss.title ++ ": already exists")
            ∈ (setupRun ghExec decodeTitles repo
                (setupRun ghExec decodeTitles repo s0).state).issuesOut) := by
  set s1 := (setupRun ghExec decodeTitles repo s0).state with hs1
  refine ⟨?_, ?_, ?_⟩
  · rw [setupRun_labelsOut_phase]
    exact labelsPhase_ghExec_out repo LABELS s1
  · rw [setupRun_msOut_phase]
    apply milestonesPhase_ghExec_all_skip
    intro ms hms
    rw [labelsPhase_ghExec_milestones]
    rw [hs1]
    exact setupRun_ghExec_milestones_mem repo s0 ms hms
  · intro iss hiss hcall
    rw [setupRun_calls] at hcall
    have htitle : iss.title ∈
        ((ISSUES.filter (fun i =>
            !((listedTitles ghExec decodeTitles repo s0).contains i.title))).map
          (fun i => i.title)) := by
      rcases List.mem_append.1 hcall with hL | hR
      · rcases List.mem_append.1 hL with h1 | h2
        · rcases List.mem_map.1 h1 with ⟨lb, _, heq⟩
          exact absurd heq (by simp [labelCall])
        · rcases List.mem_map.1 h2 with ⟨m, _, heq⟩
          exact absurd heq (by simp [msCall])
      · rcases List.mem_cons.1 hR with h3 | h4
        · exact absurd h3 (by simp)
        · rcases List.mem_map.1 h4 with ⟨j, hj, heq⟩
          simp only [issueCall, GhCall.issueCreate.injEq] at heq
          exact List.mem_map.2 ⟨j, hj, heq.1⟩
    have hiss1 : s1.issues =
        ((ISSUES.filter (fun i =>
            !((listedTitles ghExec decodeTitles repo s0).contains i.title))).map
          (fun i => i.title)).reverse ++ s0.issues := by
      rw [hs1]
      exact setupRun_ghExec_issues_eq repo s0
    have hmemrev : iss.title ∈
        ((ISSUES.filter (fun i =>
            !((listedTitles ghExec decodeTitles repo s0).contains i.title))).map
          (fun i => i.title)).reverse := List.mem_reverse.2 htitle
    have hne : s1.issues ≠ [] := by
      rw [hiss1]
      intro hnil
      rcases List.append_eq_nil.1 hnil with ⟨ha, _⟩
      rw [ha] at hmemrev
      exact absurd hmemrev (List.not_mem_nil _)
    have hT2 : listedTitles ghExec decodeTitles repo s1 = s1.issues.take 100 :=
      listedTitles_ghExec repo s1 hne
    have hlen : (((ISSUES.filter (fun i =>
        !((listedTitles ghExec decodeTitles repo s0).contains i.title))).map
          (fun i => i.title)).reverse).length ≤ 100 := by
      rw [List.length_reverse, List.length_map]
      have hf := List.length_filter_le (fun i =>
        !((listedTitles ghExec decodeTitles repo s0).contains i.title)) ISSUES
      exact le_trans hf (by decide)
    have hmem2 : iss.title ∈ s1.issues.take 100 := by
      rw [hiss1, List.take_append_eq_append_take, List.take_of_length_le hlen]
      exact List.mem_append_left _ hmemrev
    rw [setupRun_issuesOut, ghExec_issueList_snd]
    refine issuesLoop_skip_mem ghExec repo _ ISSUES iss ?_ _ hiss
    rw [hT2]
    exact hmem2

set_option maxRecDepth 40000 in
/-- Witness for C5: starting from the empty remote, the first run creates
`README setup`, and the second run reports it skipped. -/
theorem witness_C5 :
    GhCall.issueCreate "README setup"
        "Create a comprehensive README with project description, installation instructions, and usage examples."
        "acme/widgets"
        ∈ (setupRun ghExec decodeTitles "acme/widgets" ⟨[], [], []⟩).calls
    ∧ ("  [skip] README setup: already exists")
        ∈ (setupRun ghExec decodeTitles "acme/widgets"
            (setupRun ghExec decodeTitles "acme/widgets" ⟨[], [], []⟩).state).issuesOut := by
  refine ⟨by decide, ?_⟩
  exact (claim_C5 "acme/widgets" ⟨[], [], []⟩).2.2
    ⟨"README setup", "Create a comprehensive README with project description, installation instructions, and usage examples."⟩
    (by decide) (by decide)

set_option maxRecDepth 100000 in
/-- Claim C10: the de-duplication query requests at most 100 existing issue
titles (`--limit 100` in the exact command vector, and the spec-modelled
remote returns only the first 100 titles); a Catalog issue whose title
exists on the remote beyond that limit is not skipped — its create call is
attempted and no skip line for it appears. -/
theorem claim_C10 (repo : String) :
    (GhCall.issueList repo).argv =
      ["gh", "issue", "list", "--state", "all", "--limit", "100",
       "--json", "title", "-R", repo]
    ∧ (∀ s : Remote, (ghExec s (GhCall.issueList repo)).1.stdout =
        encodeTitles (s.issues.take 100))
    ∧ "README setup" ∈ overLimitRemote.issues
    ∧ GhCall.issueCreate "README setup"
        "Create a comprehensive README with project description, installation instructions, and usage examples."
        "acme/widgets"
        ∈ (setupRun ghExec decodeTitles "acme/widgets" overLimitRemote).calls
    ∧ ("  [skip] README setup: already exists")
        ∉ (setupRun ghExec decodeTitles "acme/widgets" overLimitRemote).out := by
  exact ⟨rfl, fun s => rfl, by decide, by decide, by decide⟩

/-- Witness for C6: the fixed call order at a concrete world and repo. -/
theorem witness_C6 :
    (setupRun okWorld noParse "acme/widgets" ()).calls =
      LABELS.map (labelCall "acme/widgets") ++ MILESTONES.map (msCall "acme/widgets")
        ++ GhCall.issueList "acme/widgets" ::
          (ISSUES.filter
            (fun i => !((listedTitles okWorld noParse "acme/widgets" ()).contains i.title))).map
            (issueCall "acme/widgets") :=
  claim_C6 okWorld noParse "acme/widgets" ()

/-- Witness for C7: `suggest` on `acme/widgets` makes no call and has the
fixed row counts. -/
theorem witness_C7 :
    (runCmd okWorld noParse ⟨"acme/widgets", Cmd.suggest⟩ ()).calls = []
    ∧ (LABELS.map labelRow).length = 8
    ∧ (ISSUES.map issueRow).length = 4
    ∧ (MILESTONES.map msRow).length = 3 :=
  ⟨(claim_C7 "acme/widgets" okWorld noParse ()).1,
   (claim_C7 "acme/widgets" okWorld noParse ()).2.2.2.1,
   (claim_C7 "acme/widgets" okWorld noParse ()).2.2.2.2.1,
   (claim_C7 "acme/widgets" okWorld noParse ()).2.2.2.2.2.2⟩

/-- Witness for C10: the listing command vector at a concrete repo, and the
over-the-limit issue's skip line absent from the transcript. -/
theorem witness_C10 :
    (GhCall.issueList "acme/widgets").argv =
      ["gh", "issue", "list", "--state", "all", "--limit", "100",
       "--json", "title", "-R", "acme/widgets"]
    ∧ ("  [skip] README setup: already exists")
        ∉ (setupRun ghExec decodeTitles "acme/widgets" overLimitRemote).out :=
  ⟨(claim_C10 "acme/widgets").1, (claim_C10 "acme/widgets").2.2.2.2⟩
